import Mathlib

/-!
# Voice Form Filler — shallow embedding of the conversation orchestration engine

This file embeds, in Lean, the stateful core of the Voice Form Filler Chrome
extension: the `ConversationStateMachine` of the background service worker and
the answer-reconciliation part of the content script's `FormAnalyzer`.

Modelling conventions:
* JavaScript plain objects used as string-keyed maps (`this.fieldResponses`,
  `validationResult.results`, the fill-data map) are association lists
  `List (String × α)` in insertion order, with `jsGet`/`jsSet` reproducing
  property read and property assignment.
* A JavaScript value that may be `undefined` is an `Option`; `truthy`/`jsOr`
  reproduce truthiness and the `||` operator on such values.
* The asynchronous control flow (message handlers, fetch continuations,
  timers) is modelled as an event-labelled transition function `step` on the
  machine state.  The fields `pendingValidation` and `pendingFill` record that
  a fetch / sendMessage continuation is outstanding, so that the corresponding
  completion event can only fire after the call was issued; `passStart` is a
  ghost history variable (the cursor value at which the current questioning
  pass began) used only in specifications.  No behaviour reads `passStart`.
* External collaborator results (transcripts, validation responses, writer
  outcomes) are inputs carried by the events.
-/

namespace VoiceFormFiller

/-- Read a property of a JS object modelled as an association list
(`obj[k]`, `undefined` when absent). -/
def jsGet {α : Type} : List (String × α) → String → Option α
  | [], _ => none
  | p :: rest, k => if p.1 = k then some p.2 else jsGet rest k

/-- Property assignment `obj[k] = v`: overwrite the first binding of `k`
in place, or append a new binding. -/
def jsSet {α : Type} : List (String × α) → String → α → List (String × α)
  | [], k, v => [(k, v)]
  | p :: rest, k, v => if p.1 = k then (k, v) :: rest else p :: jsSet rest k v

/-- Truthiness of a possibly-undefined JS string: `undefined` and `""` are
falsy, every other string is truthy. -/
def truthy : Option String → Bool
  | none => false
  | some s => !(s = "")

/-- The JS `||` operator on possibly-undefined strings. -/
def jsOr (a b : Option String) : Option String :=
  if truthy a then a else b

/-- The states of the conversation state machine (`this.states` in
`background.js`). -/
inductive St where
  | IDLE
  | ANALYZING
  | QUESTIONING
  | VALIDATING
  | CORRECTING
  | FILLING
  | COMPLETED
  | ERROR
deriving DecidableEq, Repr

/-- A detected form field, as produced by the content script's
`extractFieldInfo` and consumed by the background script.  Only the
properties the orchestration logic reads are modelled. -/
structure Field where
  id : String
  name : String
  humanLabel : String
  fieldType : String
deriving DecidableEq, Repr

/-- An entry of `this.fieldResponses` in the background script: created in
`processVoiceResponse` with the first five properties, the remaining ones
assigned later by the validation merge. -/
structure FieldResponse where
  original : Option String
  normalized : Option String
  fieldType : String
  fieldName : String
  fieldId : String
  valid : Option Bool := none
  confidence : Option ℚ := none
  reason : Option String := none
  suggestions : Option (List String) := none
deriving DecidableEq, Repr

/-- Modelled from the spec: one entry of the validation service's
`results` map.  The backend (`backend/main.py`) is not part of the source
tree; per §6 of the specification a result carries exactly
`normalized, valid, confidence, reason?, suggestions?` — in particular it
has no `original` property. -/
structure ValidationFieldResult where
  normalized : Option String
  valid : Bool
  confidence : Option ℚ := none
  reason : Option String := none
  suggestions : Option (List String) := none
deriving DecidableEq, Repr

/-- Modelled from the spec: reading `result.original` on a validation
result object.  The response shape (§6) has no `original` key, so the
property access evaluates to `undefined`. -/
def resultOriginal (_ : ValidationFieldResult) : Option String := none

/-- The body of a `/validate` response. -/
structure ValidationResult where
  results : List (String × ValidationFieldResult)
  all_valid : Bool
  invalid_count : Nat
deriving DecidableEq, Repr

/-- The batched request body built by `validateResponses`. -/
structure ValidationRequest where
  fields : List (String × Option String)
  field_types : List (String × String)
deriving DecidableEq, Repr

/-- The whole mutable state of `ConversationStateMachine`, plus the
bookkeeping described in the file header (`pendingValidation`,
`pendingFill`, ghost `passStart`). -/
structure Machine where
  currentState : St
  detectedFields : List Field
  fieldResponses : List (String × FieldResponse)
  currentFieldIndex : Nat
  retryCount : Nat
  pendingValidation : Bool
  pendingFill : Bool
  passStart : Nat
deriving DecidableEq, Repr

/-- The retry budget `this.maxRetries`. -/
def maxRetries : Nat := 3

/-- The state set up by the constructor. -/
def initialMachine : Machine where
  currentState := .IDLE
  detectedFields := []
  fieldResponses := []
  currentFieldIndex := 0
  retryCount := 0
  pendingValidation := false
  pendingFill := false
  passStart := 0

/-- The method `startConversation`: enter QUESTIONING, reset the cursor and the
collected answers.  (The subsequent `askCurrentQuestion` call only emits
TTS / recording side effects and changes no session state.) -/
def startConversation (m : Machine) : Machine :=
  { m with currentState := .QUESTIONING, currentFieldIndex := 0,
           fieldResponses := [], passStart := 0 }

/-- The catch-branch of `processVoiceResponse`: bump the (session-global)
retry counter; at or below `maxRetries` the same question is re-asked
after a delay, above it the session enters ERROR. -/
def processVoiceFailure (m : Machine) : Machine :=
  let m1 := { m with retryCount := m.retryCount + 1 }
  if m1.retryCount ≤ maxRetries then m1 else { m1 with currentState := .ERROR }

/-- The synchronous prefix of `validateResponses`: enter VALIDATING, zero
the retry counter, and issue the single batched fetch (recorded by
`pendingValidation`). -/
def validateResponsesStart (m : Machine) : Machine :=
  { m with currentState := .VALIDATING, retryCount := 0, pendingValidation := true }

/-- The request body `validateResponses` builds: one entry per collected
answer, `label → original transcript` and `label → field type`. -/
def buildValidationRequest (m : Machine) : ValidationRequest where
  fields := m.fieldResponses.map (fun p => (p.1, p.2.original))
  field_types := m.fieldResponses.map (fun p => (p.1, p.2.fieldType))

/-- The success path of `processVoiceResponse` with transcript `text`:
store the response keyed by the current field's human label, advance the
cursor, and either wait for the next question or enter validation.  If
the cursor is out of range, reading `currentField.humanLabel` throws and
the catch branch runs instead. -/
def processVoiceSuccess (m : Machine) (text : String) : Machine :=
  match m.detectedFields[m.currentFieldIndex]? with
  | none => processVoiceFailure m
  | some f =>
    let resp : FieldResponse :=
      { original := some text, normalized := some text,
        fieldType := f.fieldType, fieldName := f.name, fieldId := f.id }
    let m1 := { m with
      fieldResponses := jsSet m.fieldResponses f.humanLabel resp,
      currentFieldIndex := m.currentFieldIndex + 1 }
    if m1.currentFieldIndex < m1.detectedFields.length then m1
    else validateResponsesStart m1

/-- The field assignments `validateResponses` performs on one stored
response when the result map has an entry for it (lines 952–956 of the
background script); note `normalized` becomes
`result.normalized || result.original`. -/
def applyResult (old : FieldResponse) (r : ValidationFieldResult) : FieldResponse :=
  { old with
    normalized := jsOr r.normalized (resultOriginal r),
    valid := some r.valid,
    confidence := r.confidence,
    reason := r.reason,
    suggestions := r.suggestions }

/-- One iteration of the merge loop: update the stored response for this
result's key if one exists, otherwise do nothing. -/
def mergeOne (rs : List (String × FieldResponse)) (p : String × ValidationFieldResult) :
    List (String × FieldResponse) :=
  match jsGet rs p.1 with
  | some old => jsSet rs p.1 (applyResult old p.2)
  | none => rs

/-- The whole merge loop of `validateResponses` over
`Object.entries(validationResult.results)`. -/
def mergeResults (rs : List (String × FieldResponse))
    (res : List (String × ValidationFieldResult)) : List (String × FieldResponse) :=
  res.foldl mergeOne rs

/-- The invalid-field collection loop of `startCorrection`: entries of the
result map with `valid` false, resolved against `detectedFields` by human
label (only the resolved field is modelled; reason/suggestions ride along
in the source). -/
def invalidFieldsOf (res : List (String × ValidationFieldResult))
    (fields : List Field) : List Field :=
  (res.filter (fun p => !p.2.valid)).filterMap
    (fun p => fields.find? (fun f => f.humanLabel = p.1))

/-- The synchronous prefix of the background script's `fillForm`: enter
FILLING and send the fill-data map to the content script
(`pendingFill`). -/
def fillFormStart (m : Machine) : Machine :=
  { m with currentState := .FILLING, pendingFill := true }

/-- The method `startCorrection`: enter CORRECTING, collect the invalid fields, and
move the cursor to the position of the first invalid field in
`detectedFields`.  When no invalid field resolves, reading
`invalidFields[0].field` throws; the exception is caught by
`validateResponses`, whose catch branch falls back to `fillForm`. -/
def startCorrection (m : Machine) (vr : ValidationResult) : Machine :=
  match invalidFieldsOf vr.results m.detectedFields with
  | [] => fillFormStart { m with currentState := .CORRECTING }
  | f :: _ =>
    let idx := m.detectedFields.findIdx (fun g => g = f)
    { m with currentState := .CORRECTING, currentFieldIndex := idx, passStart := idx }

/-- The continuation of `validateResponses` once the service responds:
merge the result map onto the stored responses, then either fill the form
or start a correction pass. -/
def applyValidation (m : Machine) (vr : ValidationResult) : Machine :=
  let m1 := { m with pendingValidation := false,
                     fieldResponses := mergeResults m.fieldResponses vr.results }
  if vr.all_valid then fillFormStart m1 else startCorrection m1 vr

/-- Events driving the machine: completions of external calls, timers and
user commands.  Each event carries the collaborator's result. -/
inductive Ev where
  | fieldsDetected (fields : List Field)
  | voiceOk (text : String)
  | voiceErr
  | validated (vr : ValidationResult)
  | validateFailed
  | fillResult (ok : Bool)
  | askTimer
  | stopCmd
  | clearCmd

/-- The transition function.  `fieldsDetected` is the page-analysis
response inside `startProcessing` (the empty-list check throws after the
assignment, landing in the ERROR handler); `voiceOk`/`voiceErr` are the
transcription outcomes inside `processVoiceResponse`; `validated` /
`validateFailed` are the `/validate` fetch continuations (they run even
if a stop occurred meanwhile — the code never cancels them);
`fillResult` is the content script's `FILL_FORM` reply, which on failure
only notifies the popup and changes no state; `askTimer` is a delayed
`askCurrentQuestion` callback, whose only state effect is entering
validation when the cursor is exhausted; `stopCmd` / `clearCmd` are
`stopProcessing` / `clearData`. -/
def step (m : Machine) : Ev → Machine
  | .fieldsDetected fs =>
    if fs = [] then { m with detectedFields := fs, currentState := .ERROR }
    else startConversation { m with detectedFields := fs }
  | .voiceOk text => processVoiceSuccess m text
  | .voiceErr => processVoiceFailure m
  | .validated vr => if m.pendingValidation then applyValidation m vr else m
  | .validateFailed =>
    if m.pendingValidation then fillFormStart { m with pendingValidation := false } else m
  | .fillResult ok =>
    if m.pendingFill then
      if ok then { m with pendingFill := false, currentState := .COMPLETED }
      else { m with pendingFill := false }
    else m
  | .askTimer =>
    if (m.currentState = .QUESTIONING ∨ m.currentState = .CORRECTING)
        ∧ m.detectedFields.length ≤ m.currentFieldIndex then
      validateResponsesStart m
    else m
  | .stopCmd =>
    { m with currentState := .IDLE, currentFieldIndex := 0,
             fieldResponses := [], retryCount := 0, passStart := 0 }
  | .clearCmd =>
    { m with currentState := .IDLE, detectedFields := [], fieldResponses := [],
             currentFieldIndex := 0, retryCount := 0, passStart := 0 }

/-- Run a list of events from the initial machine. -/
def runTrace (evs : List Ev) : Machine :=
  evs.foldl step initialMachine

/-- The machine states reachable from the constructor state. -/
inductive Reachable : Machine → Prop where
  | init : Reachable initialMachine
  | next {m : Machine} (e : Ev) : Reachable m → Reachable (step m e)

/-- The ordered queue of fields the current questioning pass works
through: the suffix of `detectedFields` from the pass's starting cursor
(ghost `passStart`). -/
def activeQueue (m : Machine) : List Field :=
  m.detectedFields.drop m.passStart

/-- The machine state at the instant `validateResponses` is entered
during `step m e`, when that happens: either `processVoiceResponse`
stored the final answer of the pass, or a delayed `askCurrentQuestion`
found the cursor exhausted. -/
def invocationState (m : Machine) (e : Ev) : Option Machine :=
  match e with
  | .voiceOk text =>
    match m.detectedFields[m.currentFieldIndex]? with
    | none => none
    | some f =>
      let resp : FieldResponse :=
        { original := some text, normalized := some text,
          fieldType := f.fieldType, fieldName := f.name, fieldId := f.id }
      let m1 := { m with
        fieldResponses := jsSet m.fieldResponses f.humanLabel resp,
        currentFieldIndex := m.currentFieldIndex + 1 }
      if m1.currentFieldIndex < m1.detectedFields.length then none else some m1
  | .askTimer =>
    if (m.currentState = .QUESTIONING ∨ m.currentState = .CORRECTING)
        ∧ m.detectedFields.length ≤ m.currentFieldIndex then some m
    else none
  | _ => none

/-- The sequence of fields asked and answered in one questioning pass,
assuming each turn transcribes successfully to `t`: ask the current
field, store the answer (`processVoiceSuccess`), repeat until the state
guard of `askCurrentQuestion` fails or the cursor leaves the field list.
`fuel` bounds the recursion. -/
def runPass (t : String) : Nat → Machine → List Field
  | 0, _ => []
  | fuel + 1, m =>
    if m.currentState = .QUESTIONING ∨ m.currentState = .CORRECTING then
      match m.detectedFields[m.currentFieldIndex]? with
      | none => []
      | some f => f :: runPass t fuel (processVoiceSuccess m t)
    else []

/-- The `email` question templates of `generateQuestion`. -/
def emailTemplates (l : String) : List String :=
  [ "What is your email address for " ++ l ++ "?",
    "Please provide your email for " ++ l,
    "What email should I use for " ++ l ++ "?" ]

/-- The `tel` question templates. -/
def telTemplates (l : String) : List String :=
  [ "What is your phone number for " ++ l ++ "?",
    "Please provide your phone number for " ++ l,
    "What phone number should I use for " ++ l ++ "?" ]

/-- The `password` question templates. -/
def passwordTemplates (l : String) : List String :=
  [ "Please provide a password for " ++ l,
    "What password would you like to use for " ++ l ++ "?",
    "Please enter your password for " ++ l ]

/-- The `textarea` question templates. -/
def textareaTemplates (l : String) : List String :=
  [ "Please provide " ++ l,
    "What would you like to enter for " ++ l ++ "?",
    "Please describe " ++ l ]

/-- The `text` question templates. -/
def textTemplates (l : String) : List String :=
  [ "What is your " ++ l ++ "?",
    "Please provide " ++ l,
    "What should I enter for " ++ l ++ "?" ]

/-- The `questionTemplates` object lookup, keyed by field type. -/
def questionTemplates (t l : String) : Option (List String) :=
  if t = "email" then some (emailTemplates l)
  else if t = "tel" then some (telTemplates l)
  else if t = "password" then some (passwordTemplates l)
  else if t = "textarea" then some (textareaTemplates l)
  else if t = "text" then some (textTemplates l)
  else none

/-- The method `generateQuestion`: pick a template from the set for the field's type
(falling back to the `text` set) at a random index.  Each template list
has three entries, and `Math.floor(Math.random() * templates.length)` is
uniform on `{0, 1, 2}`; the ambient draw is modelled as the explicit
argument `draw`.  The source function takes only the field — there is no
seed or attempt-number parameter. -/
def generateQuestion (f : Field) (draw : Fin 3) : String :=
  ((questionTemplates f.fieldType f.humanLabel).getD
      (textTemplates f.humanLabel)).getD draw.val ""

/-- One entry of the fill-data map the background `fillForm` sends to the
content script: `label → {normalized, fieldName, fieldId}` for every
stored response. -/
structure FillResponse where
  normalized : Option String
  fieldName : String
  fieldId : String
deriving DecidableEq, Repr

/-- The fill-data map built by the background `fillForm`. -/
def buildFillData (m : Machine) : List (String × FillResponse) :=
  m.fieldResponses.map (fun p =>
    (p.1, { normalized := p.2.normalized, fieldName := p.2.fieldName,
            fieldId := p.2.fieldId }))

/-- The answer lookup of the content script's `fillForm`:
`responses[field.humanLabel] || responses[field.name] || responses[field.id]`. -/
def lookupResponse (responses : List (String × FillResponse)) (f : Field) :
    Option FillResponse :=
  ((jsGet responses f.humanLabel).orElse
    (fun _ => jsGet responses f.name)).orElse
    (fun _ => jsGet responses f.id)

/-- One iteration of the content script's `fillForm` loop over
`(successCount, errorCount)`: a field errors when no response is found,
when the response's `normalized` is `undefined`, or when the DOM write
(outcome given by the oracle `writeOk`, which models `fillField`)
fails. -/
def fillFieldStep (responses : List (String × FillResponse))
    (writeOk : Field → String → Bool) (acc : Nat × Nat) (f : Field) : Nat × Nat :=
  match lookupResponse responses f with
  | some resp =>
    match resp.normalized with
    | some v => if writeOk f v then (acc.1 + 1, acc.2) else (acc.1, acc.2 + 1)
    | none => (acc.1, acc.2 + 1)
  | none => (acc.1, acc.2 + 1)

/-- The content script's `fillForm` loop: attempt every detected field,
counting successes and errors. -/
def contentFillForm (detectedFields : List Field)
    (responses : List (String × FillResponse)) (writeOk : Field → String → Bool) :
    Nat × Nat :=
  detectedFields.foldl (fillFieldStep responses writeOk) (0, 0)

/-- The boolean the content script's `fillForm` returns:
`errorCount === 0`. -/
def contentFillResult (detectedFields : List Field)
    (responses : List (String × FillResponse)) (writeOk : Field → String → Bool) : Bool :=
  (contentFillForm detectedFields responses writeOk).2 = 0

/-- Specification predicate: every field strictly before the cursor and
at or after the start of the current pass has a stored answer under its
human label. -/
def passAnswered (m : Machine) : Prop :=
  ∀ j f, m.passStart ≤ j → j < m.currentFieldIndex →
    m.detectedFields[j]? = some f → (jsGet m.fieldResponses f.humanLabel).isSome = true

/-- Concrete fixture: an email field whose answer the validation service
will reject. -/
def fieldA : Field where
  id := "a1"
  name := "emailName"
  humanLabel := "Email"
  fieldType := "email"

/-- Concrete fixture: a text field whose answer the validation service
will accept. -/
def fieldB : Field where
  id := "b1"
  name := "cityName"
  humanLabel := "City"
  fieldType := "text"

/-- Concrete fixture: a validation response rejecting `fieldA` (reason
"missing @") and accepting `fieldB`. -/
def vrReject : ValidationResult where
  results :=
    [ ("Email", { normalized := none, valid := false, reason := some "missing @" }),
      ("City", { normalized := some "Paris", valid := true }) ]
  all_valid := false
  invalid_count := 1

/-- Concrete fixture: the machine after detecting both fields and
answering both questions — a completed first questioning pass, waiting
on the validation service. -/
def machineAfterPass : Machine :=
  runTrace [.fieldsDetected [fieldA, fieldB], .voiceOk "john at example", .voiceOk "Paris"]

/-- Concrete fixture: the machine right after a single field was
detected (state QUESTIONING, cursor 0, no retries). -/
def machineOneField : Machine := step initialMachine (.fieldsDetected [fieldA])

/-- Concrete fixture: the machine at the instant validation is invoked,
after the single detected field's answer is stored. -/
def machineAtInvocation : Machine :=
  (invocationState machineOneField (.voiceOk "john at example")).getD initialMachine

/-- A burst of `k` consecutive transcription failures. -/
def voiceErrs (k : Nat) : List Ev := List.replicate k Ev.voiceErr

/-- Concrete fixture: a fill-data entry keyed under a field's human
label. -/
def respLabelKeyed : FillResponse where
  normalized := some "value stored under the label key"
  fieldName := "emailName"
  fieldId := "a1"

/-- Concrete fixture: a fill-data entry keyed under the same field's id. -/
def respIdKeyed : FillResponse where
  normalized := some "value stored under the id key"
  fieldName := "emailName"
  fieldId := "a1"

/-- Concrete fixture: the stored response for `fieldB` before any
validation merge. -/
def respCity : FieldResponse where
  original := some "Paris"
  normalized := some "Paris"
  fieldType := "text"
  fieldName := "cityName"
  fieldId := "b1"

/-- Concrete fixture: the stored response for `fieldA` before any
validation merge. -/
def respEmail : FieldResponse where
  original := some "john at example"
  normalized := some "john at example"
  fieldType := "email"
  fieldName := "emailName"
  fieldId := "a1"

/-- Concrete fixture: a machine waiting on the content script's fill
reply, reached by answering the single field and losing the validation
transport (the documented fallback fills with raw values). -/
def machineFilling : Machine :=
  runTrace [.fieldsDetected [fieldA], .voiceOk "john at example", .validateFailed]

/-- Concrete fixture: a detected field of a type outside the template
table. -/
def fieldUnknown : Field where
  id := "d1"
  name := "apptDate"
  humanLabel := "Appointment"
  fieldType := "date"

/-- Concrete fixture: a validation result whose `normalized` is the
empty string (falsy). -/
def vfrEmpty : ValidationFieldResult where
  normalized := some ""
  valid := false
  reason := some "empty value"

/-! ## Helper lemmas about the JS-object model -/

/-- Reading after an assignment: the assigned key returns the new value,
every other key is unchanged. -/
theorem jsGet_jsSet {α : Type} (rs : List (String × α)) (k k' : String) (v : α) :
    jsGet (jsSet rs k v) k' = if k' = k then some v else jsGet rs k' := by
  induction rs with
  | nil =>
    by_cases h : k' = k
    · simp [jsGet, jsSet, h]
    · have h2 : ¬k = k' := fun hx => h hx.symm
      simp [jsGet, jsSet, h, h2]
  | cons p rest ih =>
    by_cases h1 : p.1 = k
    · by_cases h2 : k' = k
      · subst h2
        simp [jsGet, jsSet, h1]
      · have h2' : ¬k = k' := fun hx => h2 hx.symm
        have h3 : ¬p.1 = k' := by
          rw [h1]
          exact h2'
        simp [jsGet, jsSet, h1, h2, h2', h3]
    · by_cases h3 : p.1 = k'
      · have h4 : ¬k' = k := fun hx => h1 (h3.trans hx)
        simp [jsGet, jsSet, h1, h3, h4]
      · simp [jsGet, jsSet, h1, h3, ih]

/-- Assignment preserves definedness of every key. -/
theorem isSome_jsGet_jsSet {α : Type} (rs : List (String × α)) (k k' : String) (v : α)
    (h : (jsGet rs k').isSome = true) : (jsGet (jsSet rs k v) k').isSome = true := by
  rw [jsGet_jsSet]
  split <;> simp [h]

/-- A defined key of a JS object corresponds to a binding in the list. -/
theorem mem_of_jsGet_eq_some {α : Type} (rs : List (String × α)) (l : String) (v : α)
    (h : jsGet rs l = some v) : (l, v) ∈ rs := by
  induction rs with
  | nil => simp [jsGet] at h
  | cons p rest ih =>
    unfold jsGet at h
    split at h
    · obtain ⟨p1, p2⟩ := p
      simp_all
    · simp [ih h]

/-- The merge loop iteration leaves keys other than the result's key
unchanged. -/
theorem jsGet_mergeOne_ne (rs : List (String × FieldResponse))
    (p : String × ValidationFieldResult) (label : String) (h : label ≠ p.1) :
    jsGet (mergeOne rs p) label = jsGet rs label := by
  unfold mergeOne
  cases hj : jsGet rs p.1 with
  | none => rfl
  | some old => rw [jsGet_jsSet, if_neg h]

/-- The merge loop iteration rewrites a stored response for the result's
key with the source's field assignments. -/
theorem jsGet_mergeOne_self (rs : List (String × FieldResponse))
    (p : String × ValidationFieldResult) (old : FieldResponse)
    (h : jsGet rs p.1 = some old) :
    jsGet (mergeOne rs p) p.1 = some (applyResult old p.2) := by
  unfold mergeOne
  rw [h, jsGet_jsSet, if_pos rfl]

/-- The merge loop iteration preserves definedness of every key. -/
theorem isSome_jsGet_mergeOne (rs : List (String × FieldResponse))
    (p : String × ValidationFieldResult) (label : String) :
    (jsGet (mergeOne rs p) label).isSome = (jsGet rs label).isSome := by
  unfold mergeOne
  cases hj : jsGet rs p.1 with
  | none => rfl
  | some old =>
    rw [jsGet_jsSet]
    by_cases h : label = p.1
    · subst h
      simp [hj]
    · simp [h]

/-- The whole merge preserves definedness of every key. -/
theorem isSome_jsGet_mergeResults (rs : List (String × FieldResponse))
    (res : List (String × ValidationFieldResult)) (label : String) :
    (jsGet (mergeResults rs res) label).isSome = (jsGet rs label).isSome := by
  induction res generalizing rs with
  | nil => rfl
  | cons p rest ih =>
    show (jsGet (mergeResults (mergeOne rs p) rest) label).isSome = _
    rw [ih, isSome_jsGet_mergeOne]

/-- Frame property of the merge loop: a key that appears nowhere in the
result map is left exactly as it was. -/
theorem mergeResults_frame (rs : List (String × FieldResponse))
    (res : List (String × ValidationFieldResult)) (label : String)
    (h : ∀ p ∈ res, p.1 ≠ label) :
    jsGet (mergeResults rs res) label = jsGet rs label := by
  induction res generalizing rs with
  | nil => rfl
  | cons p rest ih =>
    have hp : p.1 ≠ label := h p (by simp)
    show jsGet (mergeResults (mergeOne rs p) rest) label = _
    rw [ih _ (fun q hq => h q (by simp [hq])),
        jsGet_mergeOne_ne _ _ _ (fun he => hp he.symm)]

/-- Each fill iteration accounts for exactly one field. -/
theorem fillFieldStep_sum (responses : List (String × FillResponse))
    (writeOk : Field → String → Bool) (acc : Nat × Nat) (f : Field) :
    (fillFieldStep responses writeOk acc f).1 + (fillFieldStep responses writeOk acc f).2
      = acc.1 + acc.2 + 1 := by
  rcases hl : lookupResponse responses f with _ | resp
  · simp [fillFieldStep, hl]
    omega
  · rcases hn : resp.normalized with _ | v
    · simp [fillFieldStep, hl, hn]
      omega
    · by_cases hw : writeOk f v = true <;> simp [fillFieldStep, hl, hn, hw] <;> omega

/-- The content script's fill loop accounts for every detected field:
successes plus errors equals the number of fields. -/
theorem contentFillForm_total (detectedFields : List Field)
    (responses : List (String × FillResponse)) (writeOk : Field → String → Bool) :
    (contentFillForm detectedFields responses writeOk).1
      + (contentFillForm detectedFields responses writeOk).2
      = detectedFields.length := by
  suffices h : ∀ (l : List Field) (acc : Nat × Nat),
      (l.foldl (fillFieldStep responses writeOk) acc).1
        + (l.foldl (fillFieldStep responses writeOk) acc).2 = acc.1 + acc.2 + l.length by
    simpa using h detectedFields (0, 0)
  intro l
  induction l with
  | nil => simp
  | cons f rest ih =>
    intro acc
    rw [List.foldl_cons, ih, fillFieldStep_sum]
    simp only [List.length_cons]
    omega

/-- Appending the empty string is the identity. -/
theorem str_append_empty (s : String) : s ++ "" = s := by
  cases s with
  | mk data =>
    show String.mk (data ++ []) = String.mk data
    rw [List.append_nil]

/-- A questioning pass asks nothing once the state guard of
`askCurrentQuestion` fails. -/
theorem runPass_of_guard_false (t : String) (fuel : Nat) (m : Machine)
    (h : ¬(m.currentState = .QUESTIONING ∨ m.currentState = .CORRECTING)) :
    runPass t fuel m = [] := by
  cases fuel <;> simp [runPass, h]

/-- With successful transcriptions throughout, a questioning pass asks
exactly the fields from the cursor to the end of the detected list, in
order. -/
theorem runPass_eq_drop (t : String) (fuel : Nat) (m : Machine)
    (hst : m.currentState = .QUESTIONING ∨ m.currentState = .CORRECTING)
    (hfuel : m.detectedFields.length - m.currentFieldIndex ≤ fuel) :
    runPass t fuel m = m.detectedFields.drop m.currentFieldIndex := by
  induction fuel generalizing m with
  | zero =>
    have hle : m.detectedFields.length ≤ m.currentFieldIndex := by omega
    simp [runPass, List.drop_eq_nil_of_le hle]
  | succ n ih =>
    rw [runPass, if_pos hst]
    cases hx : m.detectedFields[m.currentFieldIndex]? with
    | none =>
      have hle : m.detectedFields.length ≤ m.currentFieldIndex :=
        List.getElem?_eq_none_iff.mp hx
      rw [List.drop_eq_nil_of_le hle]
    | some f =>
      obtain ⟨hlt, hget⟩ := List.getElem?_eq_some_iff.mp hx
      rw [List.drop_eq_getElem_cons hlt, hget]
      by_cases hnext : m.currentFieldIndex + 1 < m.detectedFields.length
      · have hm1 : processVoiceSuccess m t =
            { m with
              fieldResponses := jsSet m.fieldResponses f.humanLabel
                { original := some t, normalized := some t,
                  fieldType := f.fieldType, fieldName := f.name, fieldId := f.id },
              currentFieldIndex := m.currentFieldIndex + 1 } := by
          unfold processVoiceSuccess
          rw [hx]
          simp [hnext]
        have h1 : runPass t n (processVoiceSuccess m t)
            = List.drop (m.currentFieldIndex + 1) m.detectedFields := by
          rw [hm1]
          exact ih _ hst
            (by show m.detectedFields.length - (m.currentFieldIndex + 1) ≤ n; omega)
        rw [h1]
      · have hm1 : processVoiceSuccess m t =
            validateResponsesStart
              { m with
                fieldResponses := jsSet m.fieldResponses f.humanLabel
                  { original := some t, normalized := some t,
                    fieldType := f.fieldType, fieldName := f.name, fieldId := f.id },
                currentFieldIndex := m.currentFieldIndex + 1 } := by
          unfold processVoiceSuccess
          rw [hx]
          simp [hnext]
        rw [hm1, runPass_of_guard_false t n _ (by simp [validateResponsesStart]),
          List.drop_eq_nil_of_le (by omega)]

/-! ## The pass invariant: answered prefix of the active queue -/

/-- A transcription failure does not touch the fields, answers, cursor or
pass start. -/
theorem passAnswered_processVoiceFailure (m : Machine) (h : passAnswered m) :
    passAnswered (processVoiceFailure m) := by
  by_cases hr : m.retryCount + 1 ≤ maxRetries
  · have hs : processVoiceFailure m = { m with retryCount := m.retryCount + 1 } := by
      unfold processVoiceFailure
      simp [hr]
    rw [hs]
    exact h
  · have hs : processVoiceFailure m =
        { m with retryCount := m.retryCount + 1, currentState := .ERROR } := by
      unfold processVoiceFailure
      simp [hr]
    rw [hs]
    exact h

/-- Storing a transcript preserves the pass invariant: the freshly stored
answer covers the field the cursor moves past. -/
theorem passAnswered_processVoiceSuccess (m : Machine) (t : String) (h : passAnswered m) :
    passAnswered (processVoiceSuccess m t) := by
  cases hx : m.detectedFields[m.currentFieldIndex]? with
  | none =>
    have hs : processVoiceSuccess m t = processVoiceFailure m := by
      unfold processVoiceSuccess
      rw [hx]
    rw [hs]
    exact passAnswered_processVoiceFailure m h
  | some f0 =>
    have key : passAnswered
        { m with
          fieldResponses := jsSet m.fieldResponses f0.humanLabel
            { original := some t, normalized := some t, fieldType := f0.fieldType,
              fieldName := f0.name, fieldId := f0.id },
          currentFieldIndex := m.currentFieldIndex + 1 } := by
      intro j f h1 h2 h3
      have h1' : m.passStart ≤ j := h1
      have h2' : j < m.currentFieldIndex + 1 := h2
      have h3' : m.detectedFields[j]? = some f := h3
      by_cases hj : j < m.currentFieldIndex
      · exact isSome_jsGet_jsSet _ _ _ _ (h j f h1' hj h3')
      · have hj' : j = m.currentFieldIndex := by omega
        subst hj'
        rw [hx] at h3'
        have hf : f0 = f := by injection h3'
        subst hf
        rw [jsGet_jsSet, if_pos rfl]
        rfl
    by_cases hnext : m.currentFieldIndex + 1 < m.detectedFields.length
    · have hs : processVoiceSuccess m t =
          { m with
            fieldResponses := jsSet m.fieldResponses f0.humanLabel
              { original := some t, normalized := some t, fieldType := f0.fieldType,
                fieldName := f0.name, fieldId := f0.id },
            currentFieldIndex := m.currentFieldIndex + 1 } := by
        unfold processVoiceSuccess
        rw [hx]
        simp [hnext]
      rw [hs]
      exact key
    · have hs : processVoiceSuccess m t =
          validateResponsesStart
            { m with
              fieldResponses := jsSet m.fieldResponses f0.humanLabel
                { original := some t, normalized := some t, fieldType := f0.fieldType,
                  fieldName := f0.name, fieldId := f0.id },
              currentFieldIndex := m.currentFieldIndex + 1 } := by
        unfold processVoiceSuccess
        rw [hx]
        simp [hnext]
      rw [hs]
      exact key

/-- Entering a correction pass preserves the pass invariant: both cursor
and pass start jump to the first invalid field, emptying the answered
range. -/
theorem passAnswered_startCorrection (m : Machine) (vr : ValidationResult)
    (h : passAnswered m) : passAnswered (startCorrection m vr) := by
  cases hinv : invalidFieldsOf vr.results m.detectedFields with
  | nil =>
    have hs : startCorrection m vr = fillFormStart { m with currentState := .CORRECTING } := by
      unfold startCorrection
      rw [hinv]
    rw [hs]
    exact h
  | cons f0 rest =>
    have hs : startCorrection m vr =
        { m with currentState := .CORRECTING,
                 currentFieldIndex := m.detectedFields.findIdx (fun g => g = f0),
                 passStart := m.detectedFields.findIdx (fun g => g = f0) } := by
      unfold startCorrection
      rw [hinv]
    rw [hs]
    intro j f h1 h2 h3
    have h1' : m.detectedFields.findIdx (fun g => g = f0) ≤ j := h1
    have h2' : j < m.detectedFields.findIdx (fun g => g = f0) := h2
    omega

/-- Every reachable machine state satisfies the pass invariant: each
field strictly between the pass start and the cursor has a stored
answer under its human label. -/
theorem reachable_passAnswered (m : Machine) (h : Reachable m) : passAnswered m := by
  induction h with
  | init =>
    intro j f h1 h2 h3
    have h2' : j < 0 := h2
    omega
  | next e hr ih =>
    rename_i m0
    cases e with
    | fieldsDetected fs =>
      by_cases hfs : fs = []
      · have hs : step m0 (.fieldsDetected fs)
            = { m0 with detectedFields := fs, currentState := .ERROR } := by
          simp [step, hfs]
        rw [hs]
        intro j f h1 h2 h3
        have h3' : fs[j]? = some f := h3
        rw [hfs] at h3'
        simp at h3'
      · have hs : step m0 (.fieldsDetected fs)
            = startConversation { m0 with detectedFields := fs } := by
          simp [step, hfs]
        rw [hs]
        intro j f h1 h2 h3
        have h2' : j < 0 := h2
        omega
    | voiceOk t => exact passAnswered_processVoiceSuccess m0 t ih
    | voiceErr => exact passAnswered_processVoiceFailure m0 ih
    | validated vr =>
      by_cases hp : m0.pendingValidation = true
      · have hs : step m0 (.validated vr) = applyValidation m0 vr := by
          simp [step, hp]
        rw [hs]
        have key1 : passAnswered
            { m0 with pendingValidation := false,
                      fieldResponses := mergeResults m0.fieldResponses vr.results } := by
          intro j f h1 h2 h3
          show (jsGet (mergeResults m0.fieldResponses vr.results) f.humanLabel).isSome = true
          rw [isSome_jsGet_mergeResults]
          exact ih j f h1 h2 h3
        by_cases hav : vr.all_valid = true
        · have hs2 : applyValidation m0 vr = fillFormStart
              { m0 with pendingValidation := false,
                        fieldResponses := mergeResults m0.fieldResponses vr.results } := by
            unfold applyValidation
            simp [hav]
          rw [hs2]
          exact key1
        · have hs2 : applyValidation m0 vr = startCorrection
              { m0 with pendingValidation := false,
                        fieldResponses := mergeResults m0.fieldResponses vr.results } vr := by
            unfold applyValidation
            simp [hav]
          rw [hs2]
          exact passAnswered_startCorrection _ vr key1
      · have hs : step m0 (.validated vr) = m0 := by
          simp [step, hp]
        rw [hs]
        exact ih
    | validateFailed =>
      by_cases hp : m0.pendingValidation = true
      · have hs : step m0 .validateFailed
            = fillFormStart { m0 with pendingValidation := false } := by
          simp [step, hp]
        rw [hs]
        exact ih
      · have hs : step m0 .validateFailed = m0 := by
          simp [step, hp]
        rw [hs]
        exact ih
    | fillResult ok =>
      by_cases hp : m0.pendingFill = true
      · cases ok
        · have hs : step m0 (.fillResult false) = { m0 with pendingFill := false } := by
            simp [step, hp]
          rw [hs]
          exact ih
        · have hs : step m0 (.fillResult true)
              = { m0 with pendingFill := false, currentState := .COMPLETED } := by
            simp [step, hp]
          rw [hs]
          exact ih
      · have hs : step m0 (.fillResult ok) = m0 := by
          simp [step, hp]
        rw [hs]
        exact ih
    | askTimer =>
      by_cases hg : (m0.currentState = .QUESTIONING ∨ m0.currentState = .CORRECTING)
          ∧ m0.detectedFields.length ≤ m0.currentFieldIndex
      · have hs : step m0 .askTimer = validateResponsesStart m0 := by
          simp only [step, if_pos hg]
        rw [hs]
        exact ih
      · have hs : step m0 .askTimer = m0 := by
          simp only [step, if_neg hg]
        rw [hs]
        exact ih
    | stopCmd =>
      intro j f h1 h2 h3
      have h2' : j < 0 := h2
      omega
    | clearCmd =>
      intro j f h1 h2 h3
      have h2' : j < 0 := h2
      omega

/-- Every stored answer appears in the single batched validation
request: its transcript under `fields` and its type under
`field_types`. -/
theorem request_covers_answered (mi : Machine) (f : Field) (resp : FieldResponse)
    (h : jsGet mi.fieldResponses f.humanLabel = some resp) :
    (f.humanLabel, resp.original) ∈ (buildValidationRequest mi).fields ∧
    (f.humanLabel, resp.fieldType) ∈ (buildValidationRequest mi).field_types := by
  have hmem := mem_of_jsGet_eq_some _ _ _ h
  constructor
  · exact List.mem_map.mpr ⟨(f.humanLabel, resp), hmem, rfl⟩
  · exact List.mem_map.mpr ⟨(f.humanLabel, resp), hmem, rfl⟩

/-! ## Claim C8 -/

/-- C8 (confirmed): whenever a step of the engine invokes the validation
service (`invocationState` is `some`), every field of the active queue
already has a stored Answer, and that answer's raw transcript and field
type are contained in the single batched request
(`{label → rawTranscript}` and `{label → type}`) built from all
collected answers.  `invocationState` returning at most one machine per
step reflects that `validateResponses` issues exactly one fetch per
pass, never one per field. -/
theorem C8_validation_batched_once_after_queue_answered
    (m : Machine) (e : Ev) (mi : Machine) (hre : Reachable m)
    (hi : invocationState m e = some mi) :
    ∀ f ∈ activeQueue mi, ∃ resp,
      jsGet mi.fieldResponses f.humanLabel = some resp ∧
      (f.humanLabel, resp.original) ∈ (buildValidationRequest mi).fields ∧
      (f.humanLabel, resp.fieldType) ∈ (buildValidationRequest mi).field_types := by
  have hpa := reachable_passAnswered m hre
  cases e with
  | fieldsDetected fs => simp [invocationState] at hi
  | voiceErr => simp [invocationState] at hi
  | validated vr => simp [invocationState] at hi
  | validateFailed => simp [invocationState] at hi
  | fillResult ok => simp [invocationState] at hi
  | stopCmd => simp [invocationState] at hi
  | clearCmd => simp [invocationState] at hi
  | voiceOk t =>
    cases hx : m.detectedFields[m.currentFieldIndex]? with
    | none =>
      unfold invocationState at hi
      rw [hx] at hi
      simp at hi
    | some f0 =>
      unfold invocationState at hi
      rw [hx] at hi
      by_cases hnext : m.currentFieldIndex + 1 < m.detectedFields.length
      · simp [hnext] at hi
      · simp only [hnext, if_neg, ite_false, Option.some.injEq] at hi
        subst hi
        intro f hf
        have hf' : f ∈ m.detectedFields.drop m.passStart := hf
        obtain ⟨i, hi2⟩ := List.mem_iff_getElem?.mp hf'
        rw [List.getElem?_drop] at hi2
        have hibound : m.passStart + i < m.detectedFields.length :=
          (List.getElem?_eq_some_iff.mp hi2).1
        by_cases hlt : m.passStart + i < m.currentFieldIndex
        · have hsome := hpa (m.passStart + i) f (by omega) hlt hi2
          have hsome2 : (jsGet (jsSet m.fieldResponses f0.humanLabel
              { original := some t, normalized := some t, fieldType := f0.fieldType,
                fieldName := f0.name, fieldId := f0.id }) f.humanLabel).isSome = true :=
            isSome_jsGet_jsSet _ _ _ _ hsome
          obtain ⟨resp, hresp⟩ := Option.isSome_iff_exists.mp hsome2
          exact ⟨resp, hresp, request_covers_answered _ _ _ hresp⟩
        · have hieq : m.passStart + i = m.currentFieldIndex := by omega
          rw [hieq, hx] at hi2
          have hff : f0 = f := by injection hi2
          subst hff
          have hget : jsGet (jsSet m.fieldResponses f0.humanLabel
              { original := some t, normalized := some t, fieldType := f0.fieldType,
                fieldName := f0.name, fieldId := f0.id }) f0.humanLabel =
              some { original := some t, normalized := some t, fieldType := f0.fieldType,
                     fieldName := f0.name, fieldId := f0.id } := by
            rw [jsGet_jsSet, if_pos rfl]
          exact ⟨_, hget, request_covers_answered _ _ _ hget⟩
  | askTimer =>
    unfold invocationState at hi
    by_cases hg : (m.currentState = .QUESTIONING ∨ m.currentState = .CORRECTING)
        ∧ m.detectedFields.length ≤ m.currentFieldIndex
    · rw [if_pos hg] at hi
      have hmi : m = mi := by injection hi
      subst hmi
      intro f hf
      have hf' : f ∈ m.detectedFields.drop m.passStart := hf
      obtain ⟨i, hi2⟩ := List.mem_iff_getElem?.mp hf'
      rw [List.getElem?_drop] at hi2
      have hibound : m.passStart + i < m.detectedFields.length :=
        (List.getElem?_eq_some_iff.mp hi2).1
      have hlt : m.passStart + i < m.currentFieldIndex := by omega
      have hsome := hpa (m.passStart + i) f (by omega) hlt hi2
      obtain ⟨resp, hresp⟩ := Option.isSome_iff_exists.mp hsome
      exact ⟨resp, hresp, request_covers_answered _ _ _ hresp⟩
    · rw [if_neg hg] at hi
      simp at hi

/-- Witness for C8 at a concrete reachable state: after the single
detected field is answered, validation is invoked and the queue is
covered by the batched request. -/
theorem C8_witness :
    ∃ resp,
      jsGet machineAtInvocation.fieldResponses fieldA.humanLabel = some resp ∧
      (fieldA.humanLabel, resp.original) ∈ (buildValidationRequest machineAtInvocation).fields ∧
      (fieldA.humanLabel, resp.fieldType) ∈
        (buildValidationRequest machineAtInvocation).field_types :=
  C8_validation_batched_once_after_queue_answered machineOneField
    (.voiceOk "john at example") machineAtInvocation
    (Reachable.next _ Reachable.init) (by decide) fieldA (by decide)

/-! ## Claim C4 -/

/-- A transcription failure always increments the session-global retry
counter. -/
theorem processVoiceFailure_retryCount (m : Machine) :
    (processVoiceFailure m).retryCount = m.retryCount + 1 := by
  by_cases hc : m.retryCount + 1 ≤ maxRetries <;> simp [processVoiceFailure, hc]

/-- While the incremented counter stays within the budget, a
transcription failure leaves the state unchanged (the question is simply
re-asked). -/
theorem processVoiceFailure_state_le (m : Machine)
    (h : m.retryCount + 1 ≤ maxRetries) :
    (processVoiceFailure m).currentState = m.currentState := by
  simp [processVoiceFailure, h]

/-- Once the incremented counter exceeds the budget, a transcription
failure sends the session to ERROR. -/
theorem processVoiceFailure_state_gt (m : Machine)
    (h : ¬m.retryCount + 1 ≤ maxRetries) :
    (processVoiceFailure m).currentState = .ERROR := by
  simp [processVoiceFailure, h]

/-- A failure burst decomposes as one failure followed by the rest. -/
theorem voiceErrs_succ (n : Nat) : voiceErrs (n + 1) = Ev.voiceErr :: voiceErrs n := rfl

/-- A failure burst decomposes as the bulk followed by one failure. -/
theorem voiceErrs_snoc (n : Nat) : voiceErrs (n + 1) = voiceErrs n ++ [Ev.voiceErr] := by
  simp [voiceErrs, List.replicate_succ']

/-- A failure burst adds its length to the retry counter, whatever the
machine state — the counter is never reset per field. -/
theorem burst_retryCount (k : Nat) :
    ∀ m : Machine, ((voiceErrs k).foldl step m).retryCount = m.retryCount + k := by
  induction k with
  | zero => intro m; rfl
  | succ n ih =>
    intro m
    rw [voiceErrs_succ, List.foldl_cons]
    have hstep : (step m .voiceErr) = processVoiceFailure m := rfl
    rw [hstep, ih (processVoiceFailure m), processVoiceFailure_retryCount]
    omega

/-- A failure burst that keeps the counter within the budget leaves the
state untouched. -/
theorem burst_state_le (k : Nat) :
    ∀ m : Machine, m.retryCount + k ≤ maxRetries →
      ((voiceErrs k).foldl step m).currentState = m.currentState := by
  induction k with
  | zero => intro m _; rfl
  | succ n ih =>
    intro m hk
    rw [voiceErrs_succ, List.foldl_cons]
    have hstep : (step m .voiceErr) = processVoiceFailure m := rfl
    rw [hstep, ih (processVoiceFailure m)
      (by rw [processVoiceFailure_retryCount]; omega)]
    exact processVoiceFailure_state_le m (by omega)

/-- From a zeroed counter, a burst of `maxRetries + 1` transcription
failures drives the session to ERROR. -/
theorem burst_to_error (m : Machine) (hrc : m.retryCount = 0) :
    ((voiceErrs (maxRetries + 1)).foldl step m).currentState = .ERROR := by
  rw [voiceErrs_snoc, List.foldl_append]
  have hm3 : ((voiceErrs maxRetries).foldl step m).retryCount = maxRetries := by
    rw [burst_retryCount, hrc]
    omega
  rw [List.foldl_cons, List.foldl_nil]
  have hstep : step ((voiceErrs maxRetries).foldl step m) .voiceErr
      = processVoiceFailure ((voiceErrs maxRetries).foldl step m) := rfl
  rw [hstep]
  exact processVoiceFailure_state_gt _ (by rw [hm3]; omega)

/-- C4 (corrected): the transcription retry counter is session-global,
not per-field — it is reset only when validation starts or on stop or
clear, and every transcription failure increments it no matter which
field is current.  From a zeroed counter in QUESTIONING, up to
`maxRetries` (3) consecutive failures re-issue the question with the
state unchanged and the counter equal to the number of failures, and
one further failure (the counter exceeding the budget) sends the whole
session to ERROR.  Answers carry no per-field attempt count. -/
theorem C4_retry_counter_session_global (m : Machine)
    (hst : m.currentState = .QUESTIONING) (hrc : m.retryCount = 0) :
    (∀ k, k ≤ maxRetries →
        ((voiceErrs k).foldl step m).currentState = .QUESTIONING ∧
        ((voiceErrs k).foldl step m).retryCount = k) ∧
    ((voiceErrs (maxRetries + 1)).foldl step m).currentState = .ERROR := by
  constructor
  · intro k hk
    constructor
    · rw [burst_state_le k m (by omega), hst]
    · rw [burst_retryCount, hrc]
      omega
  · exact burst_to_error m hrc

/-- Witness for C4 at a concrete machine: two failures keep the session
questioning with the counter at 2, four failures from zero give ERROR. -/
theorem C4_witness :
    ((voiceErrs 2).foldl step machineOneField).currentState = .QUESTIONING ∧
    ((voiceErrs (maxRetries + 1)).foldl step machineOneField).currentState = .ERROR :=
  ⟨(C4_retry_counter_session_global machineOneField (by decide) (by decide)).1 2
      (by decide) |>.1,
   (C4_retry_counter_session_global machineOneField (by decide) (by decide)).2⟩

/-- Counterexample to C4 as stated: two fields, the first suffers two
transcription failures before succeeding, the second then suffers only
two failures — under a per-field counter bounded by 3 the session would
re-ask, but the code's single carried-over counter reaches 4 and the
session is in ERROR.  The intermediate machine shows the cursor on the
second field with the counter already at 2 from the first field. -/
theorem C4_counterexample :
    (runTrace [.fieldsDetected [fieldA, fieldB], .voiceErr, .voiceErr,
        .voiceOk "john at example"]).currentFieldIndex = 1 ∧
    (runTrace [.fieldsDetected [fieldA, fieldB], .voiceErr, .voiceErr,
        .voiceOk "john at example"]).retryCount = 2 ∧
    (runTrace [.fieldsDetected [fieldA, fieldB], .voiceErr, .voiceErr,
        .voiceOk "john at example", .voiceErr, .voiceErr]).currentState = .ERROR ∧
    (2 : Nat) < maxRetries := by
  decide

/-! ## Claim C1 -/

/-- C1 (corrected): after a validation pass reports invalid fields,
`startCorrection` moves the cursor (and pass start) to the
original-order position of the FIRST invalid field; the correction pass
then re-asks every field from that position to the end of the detected
list in original order — a suffix of the field list that can include
fields whose answers were valid.  Only fields before the first invalid
one are not re-asked. -/
theorem C1_correction_requeues_suffix (m : Machine) (vr : ValidationResult)
    (f : Field) (rest : List Field) (t : String) (fuel : Nat)
    (hinv : invalidFieldsOf vr.results m.detectedFields = f :: rest)
    (hfuel : m.detectedFields.length ≤ fuel) :
    (startCorrection m vr).currentState = .CORRECTING ∧
    (startCorrection m vr).currentFieldIndex
      = m.detectedFields.findIdx (fun g => g = f) ∧
    runPass t fuel (startCorrection m vr)
      = m.detectedFields.drop (m.detectedFields.findIdx (fun g => g = f)) := by
  have hs : startCorrection m vr =
      { m with currentState := .CORRECTING,
               currentFieldIndex := m.detectedFields.findIdx (fun g => g = f),
               passStart := m.detectedFields.findIdx (fun g => g = f) } := by
    unfold startCorrection
    rw [hinv]
  rw [hs]
  refine ⟨rfl, rfl, ?_⟩
  exact runPass_eq_drop t fuel _ (Or.inr rfl)
    (by show m.detectedFields.length - _ ≤ fuel; omega)

/-- Witness for C1 on the two-field fixture: the service rejects the
first field, the correction pass starts at its index 0 and walks the
whole suffix. -/
theorem C1_witness :
    (startCorrection machineAfterPass vrReject).currentState = .CORRECTING ∧
    (startCorrection machineAfterPass vrReject).currentFieldIndex
      = machineAfterPass.detectedFields.findIdx (fun g => g = fieldA) ∧
    runPass "corrected answer" 2 (startCorrection machineAfterPass vrReject)
      = machineAfterPass.detectedFields.drop
          (machineAfterPass.detectedFields.findIdx (fun g => g = fieldA)) :=
  C1_correction_requeues_suffix machineAfterPass vrReject fieldA [] "corrected answer" 2
    (by decide) (by decide)

/-- Counterexample to C1 as stated: with `fieldA` invalid and `fieldB`
valid, the correction pass re-asks BOTH fields — `fieldB` is asked again
even though its answer was reported valid, so the pass's queue is not
the set of invalid fields. -/
theorem C1_counterexample :
    runPass "corrected answer" 3 (step machineAfterPass (.validated vrReject))
      = [fieldA, fieldB] ∧
    invalidFieldsOf vrReject.results machineAfterPass.detectedFields = [fieldA] ∧
    fieldB ∉ invalidFieldsOf vrReject.results machineAfterPass.detectedFields ∧
    (jsGet (step machineAfterPass (.validated vrReject)).fieldResponses
        fieldB.humanLabel).map (fun r => r.valid) = some (some true) := by
  decide

/-! ## Claim C2 -/

/-- C2 (corrected): during the commit step the content script looks up a
field's answer by HUMAN LABEL first, falling back to the field's `name`
and only then to its `id`
(`responses[field.humanLabel] || responses[field.name] ||
responses[field.id]`), before delegating the normalized value to the
writer — not by id alone as specified. -/
theorem C2_lookup_label_then_name_then_id
    (responses : List (String × FillResponse)) (f : Field) :
    ((jsGet responses f.humanLabel).isSome = true →
        lookupResponse responses f = jsGet responses f.humanLabel) ∧
    (jsGet responses f.humanLabel = none → (jsGet responses f.name).isSome = true →
        lookupResponse responses f = jsGet responses f.name) ∧
    (jsGet responses f.humanLabel = none → jsGet responses f.name = none →
        lookupResponse responses f = jsGet responses f.id) := by
  unfold lookupResponse
  refine ⟨?_, ?_, ?_⟩
  · intro h
    obtain ⟨v, hv⟩ := Option.isSome_iff_exists.mp h
    rw [hv]
    rfl
  · intro h1 h2
    obtain ⟨v, hv⟩ := Option.isSome_iff_exists.mp h2
    rw [h1, hv]
    rfl
  · intro h1 h2
    rw [h1, h2]
    rfl

/-- Witness for C2: the three lookup layers on concrete fill maps —
label-keyed entry shadows an id-keyed one, then name fallback, then id
fallback. -/
theorem C2_witness :
    lookupResponse [("Email", respLabelKeyed), ("a1", respIdKeyed)] fieldA
      = some respLabelKeyed ∧
    lookupResponse [("emailName", respLabelKeyed)] fieldA = some respLabelKeyed ∧
    lookupResponse [("a1", respIdKeyed)] fieldA = some respIdKeyed :=
  ⟨((C2_lookup_label_then_name_then_id [("Email", respLabelKeyed), ("a1", respIdKeyed)]
        fieldA).1 (by decide)).trans (by decide),
   ((C2_lookup_label_then_name_then_id [("emailName", respLabelKeyed)]
        fieldA).2.1 (by decide) (by decide)).trans (by decide),
   ((C2_lookup_label_then_name_then_id [("a1", respIdKeyed)]
        fieldA).2.2 (by decide) (by decide)).trans (by decide)⟩

/-- Counterexample to C2 as stated: with answers keyed under both the
field's label and its id, the commit lookup returns the label-keyed
entry although a different id-keyed one exists — the lookup is not "by
id, never by label". -/
theorem C2_counterexample :
    lookupResponse [("Email", respLabelKeyed), ("a1", respIdKeyed)] fieldA
      = some respLabelKeyed ∧
    jsGet [("Email", respLabelKeyed), ("a1", respIdKeyed)] fieldA.id
      = some respIdKeyed ∧
    respLabelKeyed ≠ respIdKeyed := by
  decide

/-! ## Claim C3 -/

/-- C3 (corrected): a field missing from the validation result map is
NOT marked invalid — the merge loop iterates only over the returned
results, so the missing field's Answer is left exactly as it was (its
raw transcript still stored, `valid` and `reason` untouched); no
"no validation result" reason is ever attached. -/
theorem C3_missing_result_left_untouched (rs : List (String × FieldResponse))
    (res : List (String × ValidationFieldResult)) (label : String)
    (hmiss : ∀ p ∈ res, p.1 ≠ label) :
    jsGet (mergeResults rs res) label = jsGet rs label :=
  mergeResults_frame rs res label hmiss

/-- Witness for C3 on a concrete merge: the result map only covers
"Email", and the stored "City" answer comes out of the merge
unchanged. -/
theorem C3_witness :
    jsGet (mergeResults [("Email", respEmail), ("City", respCity)]
        [("Email", { normalized := some "john@example.com", valid := true })]) "City"
      = some respCity :=
  (C3_missing_result_left_untouched [("Email", respEmail), ("City", respCity)]
      [("Email", { normalized := some "john@example.com", valid := true })] "City"
      (by decide)).trans (by decide)

/-- Counterexample to C3 as stated: after a merge whose result map lacks
"City", the stored City answer has `valid` still unset (not `false`) and
no "no validation result" reason. -/
theorem C3_counterexample :
    jsGet (mergeResults [("Email", respEmail), ("City", respCity)]
        [("Email", { normalized := some "john@example.com", valid := true })]) "City"
      = some respCity ∧
    respCity.valid ≠ some false ∧
    respCity.reason ≠ some "no validation result" := by
  decide

/-! ## Claim C5 -/

/-- C5 (corrected): the commit step reaches COMPLETED exactly when the
writer reports zero failed fields, and the writer attempts every
detected field (successes and errors add up to the field count); but on
any failure the session does NOT transition to ERROR — the background
`fillForm` catch only notifies the popup, so the state stays FILLING,
and the boolean reply carries no list of failed fields. -/
theorem C5_commit_completed_iff_no_failures (m : Machine)
    (fields : List Field) (responses : List (String × FillResponse))
    (writeOk : Field → String → Bool)
    (hs : m.currentState = .FILLING) (hp : m.pendingFill = true) :
    ((step m (.fillResult (contentFillResult fields responses writeOk))).currentState
        = .COMPLETED ↔ (contentFillForm fields responses writeOk).2 = 0) ∧
    ((contentFillForm fields responses writeOk).2 ≠ 0 →
      (step m (.fillResult (contentFillResult fields responses writeOk))).currentState
        = .FILLING) ∧
    (contentFillForm fields responses writeOk).1
        + (contentFillForm fields responses writeOk).2 = fields.length := by
  have htot := contentFillForm_total fields responses writeOk
  by_cases he : (contentFillForm fields responses writeOk).2 = 0
  · have hok : contentFillResult fields responses writeOk = true := by
      simp [contentFillResult, he]
    have hstep : (step m (.fillResult true)).currentState = .COMPLETED := by
      simp [step, hp]
    rw [hok]
    exact ⟨by simp [hstep, he], fun hne => absurd he hne, htot⟩
  · have hok : contentFillResult fields responses writeOk = false := by
      simp [contentFillResult, he]
    have hstep : (step m (.fillResult false)).currentState = m.currentState := by
      simp [step, hp]
    rw [hok, hstep, hs]
    refine ⟨?_, fun _ => rfl, htot⟩
    constructor
    · intro hcompl
      exact absurd hcompl (by decide)
    · intro h0
      exact absurd h0 he

/-- Witness for C5 on a concrete commit: one field, a writer that
accepts every value; the session completes and the counts add up. -/
theorem C5_witness :
    ((step machineFilling (.fillResult (contentFillResult [fieldA]
        (buildFillData machineFilling) (fun _ _ => true)))).currentState
      = .COMPLETED ↔
      (contentFillForm [fieldA] (buildFillData machineFilling) (fun _ _ => true)).2 = 0) ∧
    ((contentFillForm [fieldA] (buildFillData machineFilling) (fun _ _ => true)).2 ≠ 0 →
      (step machineFilling (.fillResult (contentFillResult [fieldA]
          (buildFillData machineFilling) (fun _ _ => true)))).currentState = .FILLING) ∧
    (contentFillForm [fieldA] (buildFillData machineFilling) (fun _ _ => true)).1
        + (contentFillForm [fieldA] (buildFillData machineFilling) (fun _ _ => true)).2
      = ([fieldA] : List Field).length :=
  C5_commit_completed_iff_no_failures machineFilling [fieldA]
    (buildFillData machineFilling) (fun _ _ => true) (by decide) (by decide)

/-- Counterexample to C5 as stated: when the writer reports failure, the
session does not transition to ERROR — it stays in FILLING, with only a
popup notification emitted. -/
theorem C5_counterexample :
    machineFilling.currentState = .FILLING ∧
    (step machineFilling (.fillResult false)).currentState = .FILLING ∧
    (step machineFilling (.fillResult false)).currentState ≠ .ERROR := by
  decide

/-! ## Claim C6 -/

/-- A voice-response success stores the transcript under the current
field's human label, whatever the session state. -/
theorem processVoiceSuccess_stores (m : Machine) (f : Field) (t : String)
    (hx : m.detectedFields[m.currentFieldIndex]? = some f) :
    jsGet (processVoiceSuccess m t).fieldResponses f.humanLabel
      = some { original := some t, normalized := some t, fieldType := f.fieldType,
               fieldName := f.name, fieldId := f.id } := by
  by_cases hnext : m.currentFieldIndex + 1 < m.detectedFields.length
  · have hs : processVoiceSuccess m t =
        { m with
          fieldResponses := jsSet m.fieldResponses f.humanLabel
            { original := some t, normalized := some t, fieldType := f.fieldType,
              fieldName := f.name, fieldId := f.id },
          currentFieldIndex := m.currentFieldIndex + 1 } := by
      unfold processVoiceSuccess
      rw [hx]
      simp [hnext]
    rw [hs]
    show jsGet (jsSet m.fieldResponses f.humanLabel _) f.humanLabel = _
    rw [jsGet_jsSet, if_pos rfl]
  · have hs : processVoiceSuccess m t =
        validateResponsesStart
          { m with
            fieldResponses := jsSet m.fieldResponses f.humanLabel
              { original := some t, normalized := some t, fieldType := f.fieldType,
                fieldName := f.name, fieldId := f.id },
            currentFieldIndex := m.currentFieldIndex + 1 } := by
      unfold processVoiceSuccess
      rw [hx]
      simp [hnext]
    rw [hs]
    show jsGet (jsSet m.fieldResponses f.humanLabel _) f.humanLabel = _
    rw [jsGet_jsSet, if_pos rfl]

/-- C6 (corrected): stop() does transition the session to IDLE (and
clears answers, cursor and retry count), but a recording result that
completes afterwards is NOT discarded: `processVoiceResponse` runs with
no state guard, so the late transcript is stored as an Answer for the
field at the reset cursor (index 0).  Only the follow-up question is
suppressed, by `askCurrentQuestion`'s state guard. -/
theorem C6_late_recording_still_recorded (m : Machine) (f : Field)
    (rest : List Field) (t : String) (hf : m.detectedFields = f :: rest) :
    (step m .stopCmd).currentState = .IDLE ∧
    (step m .stopCmd).fieldResponses = [] ∧
    jsGet (step (step m .stopCmd) (.voiceOk t)).fieldResponses f.humanLabel
      = some { original := some t, normalized := some t, fieldType := f.fieldType,
               fieldName := f.name, fieldId := f.id } := by
  refine ⟨rfl, rfl, ?_⟩
  exact processVoiceSuccess_stores (step m .stopCmd) f t
    (by show m.detectedFields[0]? = some f; rw [hf]; simp)

/-- Witness for C6 on the one-field fixture: stop, then a late
transcript, and an Answer for the field is present. -/
theorem C6_witness :
    (step machineOneField .stopCmd).currentState = .IDLE ∧
    (step machineOneField .stopCmd).fieldResponses = [] ∧
    jsGet (step (step machineOneField .stopCmd)
        (.voiceOk "late answer")).fieldResponses fieldA.humanLabel
      = some { original := some "late answer", normalized := some "late answer",
               fieldType := fieldA.fieldType, fieldName := fieldA.name,
               fieldId := fieldA.id } :=
  C6_late_recording_still_recorded machineOneField fieldA [] "late answer" (by decide)

/-- Counterexample to C6 as stated: after stop() mid-QUESTIONING the
session is IDLE, yet the recording completing afterwards leaves a stored
Answer — the late result is not discarded. -/
theorem C6_counterexample :
    (runTrace [.fieldsDetected [fieldA, fieldB], .stopCmd]).currentState = .IDLE ∧
    (runTrace [.fieldsDetected [fieldA, fieldB], .stopCmd,
        .voiceOk "late answer"]).fieldResponses ≠ [] ∧
    jsGet (runTrace [.fieldsDetected [fieldA, fieldB], .stopCmd,
        .voiceOk "late answer"]).fieldResponses "Email"
      = some { original := some "late answer", normalized := some "late answer",
               fieldType := "email", fieldName := "emailName", fieldId := "a1" } := by
  decide

/-! ## Claim C7 -/

/-- C7 (corrected): clear resets the whole session (field list, answers,
cursor, retry count) to initial values and IDLE; stop resets answers,
cursor and retry count and goes to IDLE — but it KEEPS the detected
field list. -/
theorem C7_stop_keeps_fields_clear_resets_all (m : Machine) :
    (step m .stopCmd).currentState = .IDLE ∧
    (step m .stopCmd).fieldResponses = [] ∧
    (step m .stopCmd).currentFieldIndex = 0 ∧
    (step m .stopCmd).retryCount = 0 ∧
    (step m .stopCmd).detectedFields = m.detectedFields ∧
    (step m .clearCmd).currentState = .IDLE ∧
    (step m .clearCmd).detectedFields = [] ∧
    (step m .clearCmd).fieldResponses = [] ∧
    (step m .clearCmd).currentFieldIndex = 0 ∧
    (step m .clearCmd).retryCount = 0 :=
  ⟨rfl, rfl, rfl, rfl, rfl, rfl, rfl, rfl, rfl, rfl⟩

/-- Counterexample to C7 as stated: after stop the detected field list
is NOT reset to empty — the session still holds the fields. -/
theorem C7_counterexample :
    (runTrace [.fieldsDetected [fieldA], .stopCmd]).currentState = .IDLE ∧
    (runTrace [.fieldsDetected [fieldA], .stopCmd]).detectedFields = [fieldA] ∧
    [fieldA] ≠ ([] : List Field) := by
  decide

/-! ## Claim C9 -/

/-- C9 (corrected): the source's `generateQuestion` takes only the field
— its selection comes from an ambient `Math.random()` draw, with no
attempt-number parameter and no seed the caller could fix.  With the
draw made an explicit argument the generator is a pure function; every
generated question contains the field's human label, and an unknown
field type falls back to the `text` template set. -/
theorem C9_generator_label_and_fallback (f : Field) (draw : Fin 3) :
    (∃ pre post : String, generateQuestion f draw = pre ++ f.humanLabel ++ post) ∧
    (f.fieldType ≠ "email" → f.fieldType ≠ "tel" → f.fieldType ≠ "password" →
      f.fieldType ≠ "textarea" → f.fieldType ≠ "text" →
      generateQuestion f draw
        = generateQuestion { f with fieldType := "text" } draw) := by
  obtain ⟨v, hv⟩ := draw
  constructor
  · unfold generateQuestion questionTemplates
    split_ifs <;>
      (interval_cases v <;>
        first
          | exact ⟨_, _, rfl⟩
          | exact ⟨_, "", (str_append_empty _).symm⟩)
  · intro h1 h2 h3 h4 h5
    unfold generateQuestion questionTemplates
    simp only [if_neg h1, if_neg h2, if_neg h3, if_neg h4, if_neg h5]
    rfl

/-- Witness for C9 at a concrete unknown-type field and a fixed draw:
the question contains the label and equals the text-type question. -/
theorem C9_witness :
    (∃ pre post : String,
        generateQuestion fieldUnknown 2 = pre ++ fieldUnknown.humanLabel ++ post) ∧
    generateQuestion fieldUnknown 2
      = generateQuestion { fieldUnknown with fieldType := "text" } 2 :=
  ⟨(C9_generator_label_and_fallback fieldUnknown 2).1,
   (C9_generator_label_and_fallback fieldUnknown 2).2 (by decide) (by decide)
     (by decide) (by decide) (by decide)⟩

/-- Counterexample to C9 as stated: two invocations with identical
(fieldType, humanLabel, attemptNumber) — the code passes only the field
— return different texts, because the selection depends on the ambient
`Math.random()` draw, which is not a fixable seed parameter. -/
theorem C9_counterexample :
    generateQuestion fieldA 0 ≠ generateQuestion fieldA 1 := by
  decide

/-! ## Claim C10 -/

/-- The validation merge, for a field present exactly once in the result
map with a falsy `normalized`: the stored answer's `normalized` becomes
`undefined` (the result's nonexistent `original` property) and the other
result fields are copied over. -/
theorem mergeResults_falsy_normalized (label : String) (r : ValidationFieldResult)
    (old : FieldResponse) (hfalsy : truthy r.normalized = false) :
    ∀ (res : List (String × ValidationFieldResult)) (rs : List (String × FieldResponse)),
      (res.map Prod.fst).Nodup → (label, r) ∈ res → jsGet rs label = some old →
      jsGet (mergeResults rs res) label =
        some { old with
          normalized := none, valid := some r.valid, confidence := r.confidence,
          reason := r.reason, suggestions := r.suggestions } := by
  intro res
  induction res with
  | nil =>
    intro rs _ hmem _
    simp at hmem
  | cons p rest ih =>
    intro rs hnd hmem hold
    rw [List.map_cons, List.nodup_cons] at hnd
    obtain ⟨hp1, hndrest⟩ := hnd
    rcases List.mem_cons.mp hmem with heq | hmemrest
    · have hpl : p.1 = label := by rw [← heq]
      have hpr : p.2 = r := by rw [← heq]
      have hfr : ∀ q ∈ rest, q.1 ≠ label := by
        intro q hq hqe
        apply hp1
        rw [hpl, ← hqe]
        exact List.mem_map_of_mem Prod.fst hq
      show jsGet (mergeResults (mergeOne rs p) rest) label = _
      rw [mergeResults_frame _ _ _ hfr]
      have h1 : jsGet (mergeOne rs p) p.1 = some (applyResult old p.2) :=
        jsGet_mergeOne_self rs p old (by rw [hpl]; exact hold)
      rw [hpl, hpr] at h1
      rw [h1]
      simp [applyResult, jsOr, hfalsy, resultOriginal]
    · have hne : p.1 ≠ label := by
        intro hpe
        apply hp1
        rw [hpe]
        exact List.mem_map_of_mem Prod.fst hmemrest
      show jsGet (mergeResults (mergeOne rs p) rest) label = _
      exact ih (mergeOne rs p) hndrest hmemrest
        (by rw [jsGet_mergeOne_ne rs p label (Ne.symm hne)]; exact hold)

/-- C10 (confirmed): for every field present in the validation result
map whose returned `normalized` is falsy (absent or the empty string),
the merge overwrites the stored `normalized` with `result.original` — a
property the response shape does not have — so the Answer's normalized
value becomes `undefined`; the raw transcript previously stored there is
not preserved. -/
theorem C10_falsy_normalized_becomes_undefined
    (rs : List (String × FieldResponse)) (res : List (String × ValidationFieldResult))
    (label : String) (r : ValidationFieldResult) (old : FieldResponse)
    (hnd : (res.map Prod.fst).Nodup) (hmem : (label, r) ∈ res)
    (hold : jsGet rs label = some old) (hfalsy : truthy r.normalized = false) :
    jsGet (mergeResults rs res) label =
      some { old with
        normalized := none, valid := some r.valid, confidence := r.confidence,
        reason := r.reason, suggestions := r.suggestions } :=
  mergeResults_falsy_normalized label r old hfalsy res rs hnd hmem hold

/-- Witness for C10 on a concrete merge: the service answers with an
empty `normalized` for "Email", and the stored raw transcript is
replaced by `undefined`. -/
theorem C10_witness :
    jsGet (mergeResults [("Email", respEmail)] [("Email", vfrEmpty)]) "Email"
      = some { respEmail with
          normalized := none, valid := some false, confidence := none,
          reason := some "empty value", suggestions := none } :=
  C10_falsy_normalized_becomes_undefined [("Email", respEmail)] [("Email", vfrEmpty)]
    "Email" vfrEmpty respEmail (by decide) (by decide) (by decide) (by decide)

end VoiceFormFiller
